import Mathlib

/-!
Shallow embedding of the Foam-Agent orchestration core (src/src of the
repository): the top-level repair loop (router_func.py, reviewer_node.py),
the file writer (services/input_writer.py), the mesh boundary gate
(services/mesh.py), reference retrieval (services/plan.py), log diagnosis
and numeric-folder cleanup (utils.py), and the LLM throttling retry loop
(utils.py, LLMService).  External effects (LLM completions, the FAISS
index, subprocess execution, the filesystem) are passed in explicitly as
oracle values; every pure computation is translated from the Python source.
-/

namespace FoamAgent

/-- One parsed error record, as produced by check_foam_errors in
src/src/utils.py: a dict with keys file and error_content. -/
structure ErrorRecord where
  file : String
  error_content : String
deriving DecidableEq, Repr

/-- Nodes of the LangGraph pipeline relevant to the repair loop; done stands
for the END sentinel. -/
inductive PNode where
  | input_writer
  | runner
  | reviewer
  | visualization
  | done
deriving DecidableEq, Repr

/-- Python truthiness of an optional list value, as used by
state.get("error_logs") in router_func.py: None and the empty list are
falsy. -/
def pyTruthyList : Option (List α) → Bool
  | some (_ :: _) => true
  | _ => false

/-- route_after_runner from src/src/router_func.py (lines 162-168): route to
the reviewer when the parsed error-record list is truthy and non-empty,
otherwise to visualization or END depending on the llm_requires_visualization
decision (modelled as the boolean vis). -/
def route_after_runner (error_logs : Option (List ErrorRecord)) (vis : Bool) : PNode :=
  if pyTruthyList error_logs = true ∧ 0 < (error_logs.getD []).length then
    PNode.reviewer
  else if vis then
    PNode.visualization
  else
    PNode.done

/-- route_after_reviewer from src/src/router_func.py (lines 170-184): once
loop_count has reached config.max_loop the route is visualization or END,
otherwise another repair iteration via input_writer.  The dead in-place
write state["loop_count"] = loop_count + 1 inside the router is not a
LangGraph state update (only node return values are merged) and so does not
appear here; the persistent increment is the one in reviewer_node. -/
def route_after_reviewer (loop_count max_loop : Nat) (vis : Bool) : PNode :=
  if loop_count ≥ max_loop then
    if vis then PNode.visualization else PNode.done
  else
    PNode.input_writer

/-- Pipeline state restricted to the fields the repair loop reads and
writes: the current graph node, the loop_count field (initialized to 0 in
initialize_state), the error_logs field, and the number of completed runner
executions (used to index the run oracle). -/
structure PipelineState where
  node : PNode
  loop_count : Nat
  error_logs : Option (List ErrorRecord)
  runs : Nat
deriving DecidableEq, Repr

/-- One LangGraph superstep of the repair loop.  runErrors k is the parsed
error-record list produced by the k-th runner execution (the outcome of
run_allrun_and_collect_errors); vis is the llm_requires_visualization
decision.  Both runner nodes increment the counter before returning
(local_runner_node.py line 33 and hpc_runner_node.py line 468 both do
state[loop_count] += 1 and return it in their update dict, which LangGraph
merges); reviewer_node (src/src/nodes/reviewer_node.py line 73) returns
loop_count = state.get("loop_count", 0) + 1, after which route_after_reviewer
reads the incremented value.  So one repair iteration increments the counter
twice: once in the runner and once in the reviewer. -/
def pipelineStep (max_loop : Nat) (runErrors : Nat → List ErrorRecord) (vis : Bool)
    (s : PipelineState) : PipelineState :=
  match s.node with
  | PNode.input_writer => { s with node := PNode.runner }
  | PNode.runner =>
      let el := runErrors s.runs
      { s with
        node := route_after_runner (some el) vis
        error_logs := some el
        loop_count := s.loop_count + 1
        runs := s.runs + 1 }
  | PNode.reviewer =>
      let lc := s.loop_count + 1
      { s with
        node := route_after_reviewer lc max_loop vis
        loop_count := lc }
  | PNode.visualization => { s with node := PNode.done }
  | PNode.done => s

/-- State on entering the repair region of the graph: about to run the file
writer, loop_count = 0 (initialize_state in main.py), no error logs yet. -/
def pipelineInit : PipelineState :=
  { node := PNode.input_writer, loop_count := 0, error_logs := none, runs := 0 }

/-- The pipeline after n supersteps from the initial state. -/
def pipelineRun (max_loop : Nat) (runErrors : Nat → List ErrorRecord) (vis : Bool) :
    Nat → PipelineState
  | 0 => pipelineInit
  | n + 1 => pipelineStep max_loop runErrors vis (pipelineRun max_loop runErrors vis n)

/-- Invariant carried by the repair loop: with the runner and the reviewer
each incrementing once per iteration, the counter never exceeds
max_loop + 1, is strictly below max_loop whenever the writer or the runner
is about to run, and at most max_loop when the reviewer is about to run. -/
def pipelineInv (max_loop : Nat) (s : PipelineState) : Prop :=
  s.loop_count ≤ max_loop + 1 ∧
  ((s.node = PNode.input_writer ∨ s.node = PNode.runner) →
    s.loop_count < max_loop) ∧
  (s.node = PNode.reviewer → s.loop_count ≤ max_loop)

/-- Rank of a node inside one repair iteration, used as part of the
termination measure. -/
def nodeRank : PNode → Nat
  | PNode.input_writer => 4
  | PNode.runner => 3
  | PNode.reviewer => 2
  | PNode.visualization => 1
  | PNode.done => 0

/-- Termination measure for the repair loop: remaining loop budget (against
the max_loop + 1 counter bound) weighted by the iteration length, plus the
rank of the current node. -/
def pipelineMeasure (max_loop : Nat) (s : PipelineState) : Nat :=
  (max_loop + 1 - s.loop_count) * 4 + nodeRank s.node

/-- One file-generation subtask, as produced by the planner: a file name and
the folder it belongs to. -/
structure Subtask where
  file_name : String
  folder_name : String
deriving DecidableEq, Repr

/-- compute_priority from src/src/services/input_writer.py (lines 8-16). -/
def compute_priority (subtask : Subtask) : Nat :=
  if subtask.folder_name = "system" then 0
  else if subtask.folder_name = "constant" then 1
  else if subtask.folder_name = "0" then 2
  else 3

/-- sorted(subtasks, key=compute_priority) from initial_write
(src/src/services/input_writer.py line 85): Python sorted is a stable merge
sort on the key. -/
def sortSubtasks (subtasks : List Subtask) : List Subtask :=
  subtasks.mergeSort (fun a b => compute_priority a ≤ compute_priority b)

/-- One generated file record, as in FoamfilePydantic in src/src/utils.py:
file_name, folder_name and full content. -/
structure FoamfilePydantic where
  file_name : String
  folder_name : String
  content : String
deriving DecidableEq, Repr

/-- State touched by one rewrite iteration (src/src/services/input_writer.py,
rewrite_files, lines 404-433): the on-disk case directory modelled as an
association list from (folder_name, file_name) to content, the
dir_structure map, and the in-memory foamfiles list. -/
structure RewriteState where
  disk : List ((String × String) × String)
  dir_structure : List (String × List String)
  foamfiles : List FoamfilePydantic
deriving Repr

/-- save_file: full-file overwrite, creating the file if absent. -/
def assocSet : List ((String × String) × String) → String × String → String →
    List ((String × String) × String)
  | [], k, v => [(k, v)]
  | (k0, v0) :: rest, k, v =>
      if k0 = k then (k0, v) :: rest else (k0, v0) :: assocSet rest k v

/-- Content of a path in the modelled case directory. -/
def assocGet : List ((String × String) × String) → String × String → Option String
  | [], _ => none
  | (k0, v0) :: rest, k => if k0 = k then some v0 else assocGet rest k

/-- The dir_structure update of rewrite_files: create the folder entry when
missing, then append the file name when not already present. -/
def dirAdd : List (String × List String) → String → String → List (String × List String)
  | [], folder, file => [(folder, [file])]
  | (f0, files) :: rest, folder, file =>
      if f0 = folder then
        (f0, if file ∈ files then files else files ++ [file]) :: rest
      else
        (f0, files) :: dirAdd rest folder file

/-- File list recorded for a folder in dir_structure. -/
def dirLookup : List (String × List String) → String → List String
  | [], _ => []
  | (f0, files) :: rest, folder => if f0 = folder then files else dirLookup rest folder

/-- The foamfiles update of rewrite_files: drop any previous record with the
same (folder_name, file_name) and append the new one. -/
def foamReplace (l : List FoamfilePydantic) (f : FoamfilePydantic) :
    List FoamfilePydantic :=
  (l.filter fun g => ¬(g.folder_name = f.folder_name ∧ g.file_name = f.file_name)) ++ [f]

/-- Presence of a record for a (folder, file) pair in a foamfiles list. -/
def foamHas (l : List FoamfilePydantic) (folder file : String) : Prop :=
  ∃ g ∈ l, g.folder_name = folder ∧ g.file_name = file

/-- The body of the loop over response.list_foamfile in rewrite_files:
overwrite the file on disk, merge into dir_structure, replace the foamfiles
record. -/
def applyRewriteFile (st : RewriteState) (f : FoamfilePydantic) : RewriteState :=
  { disk := assocSet st.disk (f.folder_name, f.file_name) f.content
    dir_structure := dirAdd st.dir_structure f.folder_name f.file_name
    foamfiles := foamReplace st.foamfiles f }

/-- rewrite_files from src/src/services/input_writer.py (lines 404-433),
restricted to its state effect: fold the per-file update over the rewrite
response (the same loop appears in _rewrite_mode of
src/src/nodes/input_writer_node.py, lines 94-116). -/
def rewrite_files (st : RewriteState) (response : List FoamfilePydantic) : RewriteState :=
  response.foldl applyRewriteFile st

/-- A (folder, file) pair is named in a rewrite response. -/
def namedInResponse (response : List FoamfilePydantic) (folder file : String) : Prop :=
  ∃ f ∈ response, f.folder_name = folder ∧ f.file_name = file

/-- Python str.strip whitespace class (ASCII part): space, tab, newline,
carriage return, vertical tab, form feed. -/
def isPyWS (c : Char) : Bool :=
  c = ' ' || c = Char.ofNat 9 || c = Char.ofNat 10 || c = Char.ofNat 13 ||
  c = Char.ofNat 11 || c = Char.ofNat 12

/-- Python str.strip on a character list: drop whitespace at both ends. -/
def trimChars (l : List Char) : List Char :=
  ((l.dropWhile isPyWS).reverse.dropWhile isPyWS).reverse

/-- Python str.strip. -/
def pyStrip (s : String) : String :=
  String.mk (trimChars s.data)

/-- Continuation of a digit run in Python float syntax: further digits with
single underscores allowed between digits. -/
def digitsURest : List Char → Bool
  | [] => true
  | '_' :: c :: rest => c.isDigit && digitsURest rest
  | c :: rest => c.isDigit && digitsURest rest

/-- A non-empty Python digit run: digits with single underscores strictly
between digits ([0-9](_?[0-9])*). -/
def digitsU : List Char → Bool
  | [] => false
  | c :: rest => c.isDigit && digitsURest rest

/-- Split a character list at the first occurrence of a separator. -/
def splitAtChar (sep : Char) : List Char → Option (List Char × List Char)
  | [] => none
  | c :: rest =>
      if c = sep then some ([], rest)
      else (splitAtChar sep rest).map (fun p => (c :: p.1, p.2))

/-- Mantissa of a Python float literal: digits, digits dot, digits dot
digits, or dot digits. -/
def isMantissa (l : List Char) : Bool :=
  match splitAtChar '.' l with
  | none => digitsU l
  | some (a, b) => (digitsU a && (b.isEmpty || digitsU b)) || (a.isEmpty && digitsU b)

/-- Split at the first exponent marker e or E. -/
def splitAtExp : List Char → Option (List Char × List Char)
  | [] => none
  | c :: rest =>
      if c = 'e' ∨ c = 'E' then some ([], rest)
      else (splitAtExp rest).map (fun p => (c :: p.1, p.2))

/-- Exponent of a Python float literal: optional sign then a digit run. -/
def isExponentPart : List Char → Bool
  | [] => false
  | '+' :: r => digitsU r
  | '-' :: r => digitsU r
  | l => digitsU l

/-- Finite Python float body (no sign): mantissa with optional exponent. -/
def isFiniteFloatBody (l : List Char) : Bool :=
  match splitAtExp l with
  | none => isMantissa l
  | some (m, e) => isMantissa m && isExponentPart e

/-- Case-insensitive infinity / nan bodies accepted by Python float(). -/
def isInfNanBody (l : List Char) : Bool :=
  let low := l.map Char.toLower
  low = "inf".data || low = "infinity".data || low = "nan".data

/-- Drop one optional leading sign. -/
def dropSign : List Char → List Char
  | '+' :: r => r
  | '-' :: r => r
  | l => l

/-- Whether Python float(s) succeeds (ASCII grammar): optional surrounding
whitespace, optional sign, then a finite float literal or inf/infinity/nan.
This is the numeric test performed by remove_numeric_folders in
src/src/utils.py (the try float(item) / except ValueError). -/
def pyFloatAccepts (s : String) : Bool :=
  let body := dropSign (trimChars s.data)
  isInfNanBody body || isFiniteFloatBody body

/-- One first-level entry of a case directory: its name and whether it is a
directory. -/
structure DirEntry where
  name : String
  isDir : Bool
deriving DecidableEq, Repr

/-- remove_numeric_folders from src/src/utils.py (lines 794-816): delete
every first-level subdirectory whose name float-parses, except the one
named 0; files and non-numeric directories are kept.  The result is the
list of surviving entries. -/
def remove_numeric_folders (entries : List DirEntry) : List DirEntry :=
  entries.filter fun e => !(e.isDir && (e.name != "0") && pyFloatAccepts e.name)

/-- One candidate returned by the FAISS structure index
(retrieve_faiss in src/src/utils.py): metadata fields may be absent
(dict.get returns None) and score is the float distance. -/
structure FaissRecord where
  case_name : String
  case_domain : Option String
  case_solver : Option String
  score : Option ℚ
  full_content : String
deriving DecidableEq, Repr

/-- solver_match of _rerank_candidates (src/src/services/plan.py lines
140-150): 1 when the candidate solver equals the requested solver (None
never equals a string in Python), else 0. -/
def solverMatch (case_solver : String) (r : FaissRecord) : Int :=
  if r.case_solver = some case_solver then 1 else 0

/-- score_val of _rerank_candidates: 0.0 when the score is missing. -/
def scoreVal (r : FaissRecord) : ℚ :=
  r.score.getD 0

/-- The comparison key of _rerank_candidates: (-solver_match, score_val)
compared lexicographically, i.e. solver exact-match descending then score
ascending. -/
def rerankLE (case_solver : String) (a b : FaissRecord) : Prop :=
  -(solverMatch case_solver a) < -(solverMatch case_solver b) ∨
    (-(solverMatch case_solver a) = -(solverMatch case_solver b) ∧
      scoreVal a ≤ scoreVal b)

instance (case_solver : String) (a b : FaissRecord) :
    Decidable (rerankLE case_solver a b) := by
  unfold rerankLE
  infer_instance

/-- _rerank_candidates from src/src/services/plan.py: Python sorted (a
stable merge sort) under the key (-solver_match, score_val). -/
def rerank_candidates (candidates : List FaissRecord) (case_solver : String) :
    List FaissRecord :=
  candidates.mergeSort (fun a b => decide (rerankLE case_solver a b))

/-- re.sub of three consecutive newlines by one, as applied to the selected
candidate's full_content in retrieve_references. -/
def collapseTripleNewlines : List Char → List Char
  | '\n' :: '\n' :: '\n' :: rest => '\n' :: collapseTripleNewlines rest
  | c :: rest => c :: collapseTripleNewlines rest
  | [] => []

/-- Outcome of retrieve_references restricted to what the claim observes:
either the explicit no-reference result (empty reference strings plus
advice) or a selected structural reference whose detail content is reused
from the selected record itself. -/
inductive RetrieveOutcome where
  | noReference
  | selected (record : FaissRecord) (faiss_detailed : String)
deriving DecidableEq, Repr

/-- The number of candidates requested from the structure index:
recall_k = max(10, int(searchdocs)). -/
def recallK (searchdocs : Nat) : Nat :=
  max 10 searchdocs

/-- The hard domain filter of retrieve_references: keep exactly the
candidates whose case_domain equals the requested domain. -/
def domainMatched (case_domain : String) (candidates : List FaissRecord) :
    List FaissRecord :=
  candidates.filter fun c => c.case_domain = some case_domain

/-- retrieve_references from src/src/services/plan.py (lines 186-234),
restricted to candidate selection: query the structure index for
recall_k = max(10, searchdocs) candidates (faissQuery k models
retrieve_faiss with topk = k), hard-filter by exact domain equality, return
the explicit no-reference result when nothing survives, otherwise rerank
and select the top record, reusing its own full_content (with triple
newlines collapsed) as the detail reference. -/
def retrieve_references (case_domain case_solver : String) (searchdocs : Nat)
    (faissQuery : Nat → List FaissRecord) : RetrieveOutcome :=
  let faiss_structure_all := faissQuery (recallK searchdocs)
  let dm := domainMatched case_domain faiss_structure_all
  if dm = [] then
    RetrieveOutcome.noReference
  else
    match (rerank_candidates dm case_solver).head? with
    | some sel =>
        RetrieveOutcome.selected sel
          (String.mk (collapseTripleNewlines sel.full_content.data))
    | none => RetrieveOutcome.noReference

/-- Whether pat occurs as a contiguous substring (Python in operator). -/
def containsSub (s pat : String) : Bool :=
  s.data.tails.any fun t => pat.data.isPrefixOf t

/-- A Python exception as observed by LLMService._is_throttling_error in
src/src/utils.py: its type name, its str() message, and the botocore
ClientError error code when the exception is a ClientError. -/
structure PyError where
  type_name : String
  message : String
  client_code : Option String
deriving DecidableEq, Repr

/-- _is_throttling_error from src/src/utils.py: ClientError instances are
classified by their error code alone; any other exception by its type name
or throttling indicator substrings of its message. -/
def is_throttling_error (e : PyError) : Bool :=
  match e.client_code with
  | some code =>
      code = "Throttling" || code = "TooManyRequestsException" ||
        code = "ThrottlingException"
  | none =>
      (e.type_name = "ThrottlingException") ||
        containsSub e.message "ThrottlingException" ||
        containsSub e.message "Too many tokens" ||
        containsSub e.message "reached max retries"

/-- The backoff delay of _handle_throttling_retry for the n-th retry
(n = retry_count after increment, so n is at least 1):
min(60, 1.0 * 2 ** (n - 1)) seconds. -/
def backoffDelay (n : Nat) : ℚ :=
  min 60 ((2 : ℚ) ^ (n - 1))

/-- sleep time of the n-th retry for a given jitter draw
(random.uniform(0, 0.1 * delay)). -/
def backoffSleep (n : Nat) (jitter : ℚ) : ℚ :=
  backoffDelay n + jitter

/-- Outcome of one underlying completion attempt. -/
inductive AttemptOutcome where
  | success (response : String)
  | failure (e : PyError)

/-- Result of LLMService.invoke as observed by the caller. -/
inductive InvokeResult where
  | ok (response : String)
  | raised (e : PyError)
  | throttleExhausted (e : PyError)
deriving DecidableEq, Repr

/-- The retry loop of LLMService.invoke (src/src/utils.py lines 599-675):
attempt k is the outcome of the underlying call after k retries; a
throttling failure increments retry_count and retries unless
retry_count would exceed max_retries (then the hard
Maximum-retries-exceeded exception is raised); any other failure is
re-raised immediately. -/
def invokeFrom (attempt : Nat → AttemptOutcome) (max_retries : Nat)
    (retry_count : Nat) : InvokeResult :=
  match attempt retry_count with
  | AttemptOutcome.success r => InvokeResult.ok r
  | AttemptOutcome.failure e =>
      if is_throttling_error e then
        if h : retry_count + 1 > max_retries then
          InvokeResult.throttleExhausted e
        else
          invokeFrom attempt max_retries (retry_count + 1)
      else
        InvokeResult.raised e
termination_by max_retries + 1 - retry_count
decreasing_by
  simp only [Nat.not_lt] at h
  omega

/-- LLMService.invoke with its default retry budget (max_retries = 10). -/
def invoke (attempt : Nat → AttemptOutcome) : InvokeResult :=
  invokeFrom attempt 10 0

/-- An ASCII apostrophe, as produced by Python repr of a plain string. -/
def pyApos : String :=
  String.singleton (Char.ofNat 39)

/-- Python repr of a simple string (no escapes needed): quoted in
apostrophes. -/
def pyStrRepr (s : String) : String :=
  pyApos ++ s ++ pyApos

/-- Python str() of a list of simple strings, as interpolated by an
f-string: bracketed, comma-space separated reprs. -/
def pyListRepr (xs : List String) : String :=
  "[" ++ String.intercalate ", " (xs.map pyStrRepr) ++ "]"

/-- boundary_error built by handle_gmsh_mesh (src/src/services/mesh.py
lines 515-520) on a boundary mismatch. -/
def boundaryMismatchError (found expected : List String) : String :=
  "Boundary mismatch after gmshToFoam. Found boundaries: " ++ pyListRepr found ++
    ". Expected boundaries: " ++ pyListRepr expected ++ ". "

/-- Fixed tail of the boundary_info block built by _correct_gmsh_python_code
(src/src/services/mesh.py lines 310-324). -/
def boundaryInfoTail : String :=
  "Please correct the mesh code so that the boundaries in the OpenFOAM boundary file match the expected boundaries exactly." ++
  "Note that these boundaries might be present in the msh file, but not in the boundary file after running gmshToFoam to convert the msh file to OpenFOAM format." ++
  "MOST LIKELY CAUSES: " ++
  "1. Physical groups were created before mesh generation. Move ALL physical group creation to AFTER gmsh.model.mesh.generate(3). " ++
  "2. Points created at z=0 instead of z=z_min. Create ALL points at z=z_min for proper boundary detection. " ++
  "3. Incorrect surface detection logic - surfaces not properly classified by position. " ++
  "4. If " ++ pyApos ++ "defaultFaces" ++ pyApos ++ " appears, it means some surfaces weren" ++ pyApos ++
  "t assigned to any physical group. " ++
  "5. Check that ALL surfaces are being classified and assigned to the correct user-specified boundary names." ++
  "</boundary_mismatch>"

/-- The boundary_info block of _correct_gmsh_python_code: the exact found
and expected boundary lists followed by the fixed guidance text. -/
def gmshBoundaryInfo (found expected : List String) : String :=
  "\n<boundary_mismatch>Found boundaries in OpenFOAM: " ++ pyListRepr found ++
    ". Expected boundaries: " ++ pyListRepr expected ++ ". " ++ boundaryInfoTail

/-- Fixed tail of the boundary-mismatch correction prompt of
_correct_gmsh_python_code (src/src/services/mesh.py lines 326-338). -/
def gmshCorrectionPromptTail : String :=
  "Please analyze the current Python code and the boundary mismatch information. " ++
  "The mesh generation was successful, but the boundaries in the OpenFOAM conversion do not match the expected boundaries. " ++
  "MOST LIKELY SOLUTIONS: " ++
  "1. Move ALL physical group creation to AFTER gmsh.model.mesh.generate(3). " ++
  "2. Use correct thin boundary detection: abs(zmin - zmax) < tol AND (abs(zmin - z_min) < tol OR abs(zmin - z_max) < tol). " ++
  "3. Use tolerance tol = 1e-6 for all floating point comparisons. " ++
  "4. Use exact boundary names from user requirements, do not hardcode specific names. " ++
  "Provide a corrected Python code that ensures the boundaries in the OpenFOAM boundary file match the expected boundaries exactly. " ++
  "IMPORTANT: Return ONLY the complete corrected Python code without any additional text."

/-- The full boundary-mismatch correction prompt sent to the LLM by
_correct_gmsh_python_code when handle_gmsh_mesh detects a mismatch (the
found and expected lists are always passed along the boundary_error). -/
def gmshCorrectionPrompt (user_requirement current_code : String)
    (found expected : List String) : String :=
  "<user_requirements>" ++ user_requirement ++ "</user_requirements>" ++
    gmshBoundaryInfo found expected ++ "\n" ++
    "<current_python_code>" ++ current_code ++ "</current_python_code>\n" ++
    gmshCorrectionPromptTail

/-- Inputs of one boundary-phase pass of the gmsh mesh loop, with the
external effects (boundary file presence, boundaries parsed from it, the
LLM correction result, the checkMesh verdict) supplied as oracle values. -/
structure GmshIterInput where
  boundaryFileExists : Bool
  found_boundaries : List String
  expected_boundaries : List String
  correctorResult : Option String
  checkmeshOk : Bool
  checkmeshContinue : Bool
  checkmeshCode : Option String
deriving DecidableEq, Repr

/-- Outcome of one boundary-phase pass: proceed to the accepted-mesh path
(boundary relabeling, .foam creation, mesh_info return), loop again with an
optional replacement generation script, or abort the mesh stage. -/
inductive MeshIterOutcome where
  | accept
  | retry (newCode : Option String)
  | abort
deriving DecidableEq, Repr

/-- The checkMesh step following the boundary comparison
(run_checkmesh_and_correct, src/src/services/mesh.py lines 360-386 and its
call site): quality ok proceeds to acceptance, otherwise loop again (with
corrected code when available) or abort. -/
def afterBoundaryCheck (inp : GmshIterInput) : MeshIterOutcome :=
  if inp.checkmeshOk then MeshIterOutcome.accept
  else if inp.checkmeshContinue then MeshIterOutcome.retry inp.checkmeshCode
  else MeshIterOutcome.abort

/-- The boundary phase of one handle_gmsh_mesh iteration
(src/src/services/mesh.py lines 511-545): when the converted boundary file
exists, compare set(found_boundaries) with set(expected_boundaries); on a
mismatch with budget remaining invoke the corrector and loop with its
result when it returns code — when it returns none, control falls through
to the checkMesh step; on a mismatch with the budget exhausted, abort; when
the sets agree (or the boundary file is absent) continue towards
acceptance. -/
def handle_gmsh_boundary_phase (inp : GmshIterInput) (current_loop max_loop : Nat) :
    MeshIterOutcome :=
  if inp.boundaryFileExists then
    if inp.found_boundaries.toFinset ≠ inp.expected_boundaries.toFinset then
      if current_loop < max_loop then
        match inp.correctorResult with
        | some c => MeshIterOutcome.retry (some c)
        | none => afterBoundaryCheck inp
      else MeshIterOutcome.abort
    else afterBoundaryCheck inp
  else MeshIterOutcome.accept

/-- The suffix of a character list starting at the first occurrence of the
ERROR: marker, when present: re.search("ERROR:(.*)", content, DOTALL)
matches from the first ERROR: to the end of the content. -/
def fromMarker : List Char → Option (List Char)
  | [] => none
  | c :: cs =>
      if "ERROR:".data.isPrefixOf (c :: cs) then some (c :: cs)
      else fromMarker cs

/-- The stripped group(0) of the ERROR: search on a log content, when the
marker occurs: everything from the first ERROR: to the end, stripped. -/
def errorMatch (content : String) : Option String :=
  (fromMarker content.data).map fun l => pyStrip (String.mk l)

/-- Whether a log contains the standalone End completion marker: the
MULTILINE search for whitespace-only-around End on some line, i.e. some
newline-separated line strips to exactly End. -/
def hasEndMarker (content : String) : Bool :=
  (content.splitOn "\n").any fun line => pyStrip line = "End"

/-- content.strip().split("\n")[-n:] joined back with newlines. -/
def lastLines (n : Nat) (content : String) : String :=
  let ls := (pyStrip content).splitOn "\n"
  String.intercalate "\n" (ls.drop (ls.length - n))

/-- The tier-2 record content: the missing-End message followed by the last
30 lines of the log. -/
def tier2Message (content : String) : String :=
  "Solver did not complete (no " ++ pyApos ++ "End" ++ pyApos ++
    " marker found). Last 30 lines:\n" ++ lastLines 30 content

/-- The record produced for an unreadable log file
(filepath = os.path.join(directory, file)). -/
def unreadableMessage (directory file : String) : String :=
  "Could not read log file: " ++ directory ++ "/" ++ file

/-- The files of a directory listing that the log scanner visits: names
starting with log, in listdir order.  The content is none when reading the
file raises IOError/OSError. -/
def logEntries (entries : List (String × Option String)) :
    List (String × Option String) :=
  entries.filter fun e => "log".data.isPrefixOf e.1.data

/-- The tier-1 record produced for one scanned log file: unreadable files
report the read failure, readable files report the stripped ERROR: match
when one exists. -/
def tier1F (directory : String) (e : String × Option String) : Option ErrorRecord :=
  match e.2 with
  | none => some ⟨e.1, unreadableMessage directory e.1⟩
  | some content =>
      match errorMatch content with
      | some m => some ⟨e.1, m⟩
      | none => none

/-- The tier-1 pass of check_foam_errors: one record per unreadable log
file, and one record per log whose content matches the explicit ERROR:
pattern. -/
def tier1Records (directory : String) (entries : List (String × Option String)) :
    List ErrorRecord :=
  (logEntries entries).filterMap (tier1F directory)

/-- The readable logs recorded in log_contents, in scan order. -/
def readableLogs (entries : List (String × Option String)) :
    List (String × String) :=
  (logEntries entries).filterMap fun e => e.2.map fun c => (e.1, c)

/-- The timeout marker written by run_command (src/src/utils.py) on
subprocess.TimeoutExpired. -/
def timeoutMessage : String :=
  "OpenFOAM execution took too long. " ++
    "This case, if set up right, does not require such large execution times.\n"

/-- What one local execution leaves behind: the contents of the two capture
files and whether SIGKILL was sent to the whole process group. -/
structure RunCapture where
  out_file : String
  err_file : String
  killedProcessGroup : Bool
deriving DecidableEq, Repr

/-- run_command from src/src/utils.py (lines 916-960) as evidently
intended.  Note the source as committed does not parse: the
subprocess.Popen argument list opened at line 933 is never closed, so
importing utils raises SyntaxError and the function can never run; this
definition reads the body past that unclosed parenthesis.  timedOut models
whether process.communicate raised subprocess.TimeoutExpired; stdout and
stderr are the captured streams.  On timeout os.killpg sends SIGKILL to the
process group and the timeout message is prepended to both capture files;
otherwise the streams are written unchanged. -/
def run_command (timedOut : Bool) (stdout stderr : String) : RunCapture :=
  if timedOut then
    { out_file := timeoutMessage ++ stdout
      err_file := timeoutMessage ++ stderr
      killedProcessGroup := true }
  else
    { out_file := stdout, err_file := stderr, killedProcessGroup := false }

/-- check_foam_errors from src/src/utils.py (lines 962-1013): tier 1 matches
explicit ERROR: markers (and records unreadable logs); only when tier 1
produced nothing and at least one log was read, tier 2 reports every log
lacking the standalone End marker with the last 30 lines of its content. -/
def check_foam_errors (directory : String)
    (entries : List (String × Option String)) : List ErrorRecord :=
  let tier1 := tier1Records directory entries
  if tier1 = [] then
    let readable := readableLogs entries
    if readable = [] then []
    else
      readable.filterMap fun e =>
        if hasEndMarker e.2 then none
        else some ⟨e.1, tier2Message e.2⟩
  else tier1

end FoamAgent

namespace FoamAgent

/-- Helper: the router after the runner never routes back to the writer or
the runner itself. -/
theorem route_after_runner_cases (el : Option (List ErrorRecord)) (vis : Bool) :
    route_after_runner el vis = PNode.reviewer ∨
    route_after_runner el vis = PNode.visualization ∨
    route_after_runner el vis = PNode.done := by
  unfold route_after_runner
  split_ifs <;> simp

/-- Helper: the repair-loop step preserves the loop invariant. -/
theorem pipelineInv_step (max_loop : Nat) (runErrors : Nat → List ErrorRecord) (vis : Bool)
    (s : PipelineState) (h : pipelineInv max_loop s) :
    pipelineInv max_loop (pipelineStep max_loop runErrors vis s) := by
  obtain ⟨h1, h2, h3⟩ := h
  cases hn : s.node with
  | input_writer =>
      have hlt := h2 (Or.inl hn)
      unfold pipelineStep
      rw [hn]
      refine ⟨by simp; omega, fun _ => by simp; omega, fun hrev => by simp at hrev⟩
  | runner =>
      have hlt := h2 (Or.inr hn)
      unfold pipelineStep
      rw [hn]
      refine ⟨by simp; omega, ?_, fun _ => by simp; omega⟩
      intro hmem
      simp only [] at hmem
      rcases route_after_runner_cases (some (runErrors s.runs)) vis with hr | hr | hr <;>
        rw [hr] at hmem <;> simp at hmem
  | reviewer =>
      have hle := h3 hn
      unfold pipelineStep
      rw [hn]
      refine ⟨by simp; omega, ?_, ?_⟩
      · intro hmem
        simp only [route_after_reviewer] at hmem
        split_ifs at hmem
        all_goals simp_all
        all_goals omega
      · intro hrev
        simp only [route_after_reviewer] at hrev
        split_ifs at hrev
        all_goals simp_all
  | visualization =>
      unfold pipelineStep
      rw [hn]
      refine ⟨by simp; omega, fun hmem => ?_, fun hrev => by simp at hrev⟩
      simp at hmem
  | done =>
      unfold pipelineStep
      rw [hn]
      exact ⟨h1, h2, h3⟩

/-- Helper: away from the END node, the step strictly decreases the
termination measure. -/
theorem pipelineMeasure_step (max_loop : Nat) (runErrors : Nat → List ErrorRecord) (vis : Bool)
    (s : PipelineState) (h : pipelineInv max_loop s) (hne : s.node ≠ PNode.done) :
    pipelineMeasure max_loop (pipelineStep max_loop runErrors vis s) <
      pipelineMeasure max_loop s := by
  obtain ⟨h1, h2, h3⟩ := h
  cases hn : s.node with
  | input_writer =>
      simp [pipelineMeasure, pipelineStep, hn, nodeRank]
  | runner =>
      unfold pipelineMeasure pipelineStep
      rw [hn]
      rcases route_after_runner_cases (some (runErrors s.runs)) vis with hr | hr | hr <;>
        simp only [hr, nodeRank] <;> simp <;> omega
  | reviewer =>
      have hle := h3 hn
      unfold pipelineMeasure pipelineStep
      rw [hn]
      simp only [route_after_reviewer]
      split_ifs <;> simp [nodeRank] <;> omega
  | visualization =>
      simp [pipelineMeasure, pipelineStep, hn, nodeRank]
  | done => exact absurd hn hne

/-- Helper: from any state satisfying the invariant, iterating the step
reaches the END node within the measure. -/
theorem pipeline_reaches_done (max_loop : Nat) (runErrors : Nat → List ErrorRecord)
    (vis : Bool) :
    ∀ (k : Nat) (s : PipelineState), pipelineInv max_loop s →
      pipelineMeasure max_loop s ≤ k →
      ∃ n, n ≤ k ∧ ((pipelineStep max_loop runErrors vis)^[n] s).node = PNode.done := by
  intro k
  induction k with
  | zero =>
      intro s hinv hm
      refine ⟨0, Nat.le_refl 0, ?_⟩
      by_contra hne
      have := pipelineMeasure_step max_loop runErrors vis s hinv (by simpa using hne)
      omega
  | succ k ih =>
      intro s hinv hm
      by_cases hd : s.node = PNode.done
      · exact ⟨0, Nat.zero_le _, hd⟩
      · have hdec := pipelineMeasure_step max_loop runErrors vis s hinv hd
        obtain ⟨n, hn, hdone⟩ :=
          ih (pipelineStep max_loop runErrors vis s)
            (pipelineInv_step max_loop runErrors vis s hinv) (by omega)
        refine ⟨n + 1, by omega, ?_⟩
        rw [Function.iterate_succ_apply]
        exact hdone

/-- Helper: pipelineRun is iteration of the step from the initial state. -/
theorem pipelineRun_eq_iterate (max_loop : Nat) (runErrors : Nat → List ErrorRecord)
    (vis : Bool) (n : Nat) :
    pipelineRun max_loop runErrors vis n =
      (pipelineStep max_loop runErrors vis)^[n] pipelineInit := by
  induction n with
  | zero => rfl
  | succ n ih => rw [pipelineRun, ih, Function.iterate_succ_apply']

/-- Helper: every reachable state of the repair loop satisfies the
invariant, provided the ceiling is at least one. -/
theorem pipelineRun_inv (max_loop : Nat) (runErrors : Nat → List ErrorRecord)
    (vis : Bool) (h : 1 ≤ max_loop) (n : Nat) :
    pipelineInv max_loop (pipelineRun max_loop runErrors vis n) := by
  induction n with
  | zero =>
      exact ⟨Nat.zero_le _, fun _ => h, fun hrev => by simp [pipelineRun, pipelineInit] at hrev⟩
  | succ n ih => exact pipelineInv_step max_loop runErrors vis _ ih

/-- Counterexample to C1 as stated: the runner nodes also increment
loop_count (local_runner_node.py line 33, hpc_runner_node.py line 468), so
one repair iteration increments the counter twice, not once, and the
counter exceeds the ceiling.  With ceiling 1 and every run failing,
loop_count reaches 2 = max_loop + 1; with the default ceiling 25 it reaches
26; and the runner step — not a reviewer step — changes the counter. -/
theorem repair_loop_counter_counterexample :
    (pipelineRun 1 (fun _ => [⟨"logFoam", "ERROR: x"⟩]) false 3).loop_count = 2 ∧
    ¬(pipelineRun 1 (fun _ => [⟨"logFoam", "ERROR: x"⟩]) false 3).loop_count ≤ 1 ∧
    (pipelineRun 25 (fun _ => [⟨"logFoam", "ERROR: x"⟩]) false 39).loop_count = 26 ∧
    ¬(pipelineRun 25 (fun _ => [⟨"logFoam", "ERROR: x"⟩]) false 39).loop_count ≤ 25 ∧
    (pipelineStep 25 (fun _ => [⟨"logFoam", "ERROR: x"⟩]) false
        { node := PNode.runner, loop_count := 0, error_logs := none,
          runs := 0 }).loop_count = 1 ∧
    PNode.runner ≠ PNode.reviewer := by
  refine ⟨by decide, by decide, by decide, by decide, by decide, by decide⟩

/-- C1 (amended): the repair loop is bounded, with the counter incremented
twice per repair iteration.  Exactly the runner and the reviewer steps
change loop_count, each by one; along any run with ceiling at least one,
loop_count never exceeds max_loop + 1 (it reaches max_loop + 1 when
max_loop is odd, e.g. 26 with the default 25); once the counter read after
the reviewer has reached the ceiling, route_after_reviewer returns
visualization or END, never another repair iteration; and the pipeline
reaches END within 4 * max_loop + 8 supersteps. -/
theorem repair_loop_double_increment_bounded (max_loop : Nat)
    (runErrors : Nat → List ErrorRecord) (vis : Bool) (h : 1 ≤ max_loop) :
    (∀ s : PipelineState, (pipelineStep max_loop runErrors vis s).loop_count =
        s.loop_count +
          (if s.node = PNode.runner ∨ s.node = PNode.reviewer then 1 else 0)) ∧
    (∀ n : Nat, (pipelineRun max_loop runErrors vis n).loop_count ≤ max_loop + 1) ∧
    (∀ (lc : Nat) (v2 : Bool), max_loop ≤ lc →
        route_after_reviewer lc max_loop v2 ≠ PNode.input_writer ∧
        (route_after_reviewer lc max_loop v2 = PNode.visualization ∨
          route_after_reviewer lc max_loop v2 = PNode.done)) ∧
    (∃ n, n ≤ 4 * max_loop + 8 ∧
        (pipelineRun max_loop runErrors vis n).node = PNode.done) := by
  refine ⟨?_, ?_, ?_, ?_⟩
  · intro s
    cases hn : s.node <;> simp [pipelineStep, hn]
  · intro n
    exact (pipelineRun_inv max_loop runErrors vis h n).1
  · intro lc v2 hle
    unfold route_after_reviewer
    split_ifs <;> simp_all
  · obtain ⟨n, hn, hdone⟩ :=
      pipeline_reaches_done max_loop runErrors vis (4 * max_loop + 8) pipelineInit
        ⟨Nat.zero_le _, fun _ => h, fun hrev => by simp [pipelineInit] at hrev⟩
        (by simp [pipelineMeasure, pipelineInit, nodeRank]; omega)
    exact ⟨n, hn, by rw [pipelineRun_eq_iterate]; exact hdone⟩

/-- Witness for the amended C1 at a concrete configuration (ceiling 2,
every run failing, no visualization). -/
theorem repair_loop_double_increment_bounded_witness :
    (pipelineRun 2 (fun _ => [⟨"logFoam", "ERROR: x"⟩]) false 5).loop_count ≤ 3 ∧
    route_after_reviewer 2 2 false ≠ PNode.input_writer ∧
    (pipelineRun 2 (fun _ => [⟨"logFoam", "ERROR: x"⟩]) false 12).node = PNode.done := by
  refine ⟨(repair_loop_double_increment_bounded 2 _ false (by decide)).2.1 5,
    ((repair_loop_double_increment_bounded 2 (fun _ => [⟨"logFoam", "ERROR: x"⟩]) false
      (by decide)).2.2.1 2 false (by decide)).1, by decide⟩

/-- C2: after the runner, the router returns the reviewer route exactly when
the parsed error-record list is non-empty; with zero error records it
routes directly to visualization or END, and along any run whose executions
all produce zero error records the reviewer node is never reached. -/
theorem route_after_runner_reviewer_iff (el : Option (List ErrorRecord)) (vis : Bool) :
    (route_after_runner el vis = PNode.reviewer ↔ ∃ l, el = some l ∧ l ≠ []) ∧
    ((el = none ∨ el = some []) →
      route_after_runner el vis = (if vis then PNode.visualization else PNode.done) ∧
      route_after_runner el vis ≠ PNode.reviewer) ∧
    (∀ (max_loop : Nat) (runErrors : Nat → List ErrorRecord) (v : Bool),
      (∀ k, runErrors k = []) →
      ∀ n, (pipelineRun max_loop runErrors v n).node ≠ PNode.reviewer) := by
  refine ⟨?_, ?_, ?_⟩
  · match el with
    | none => cases vis <;> simp [route_after_runner, pyTruthyList]
    | some [] => cases vis <;> simp [route_after_runner, pyTruthyList]
    | some (e :: l) =>
        simp [route_after_runner, pyTruthyList]
  · rintro (rfl | rfl)
    · refine ⟨by simp [route_after_runner, pyTruthyList], ?_⟩
      cases vis <;> simp [route_after_runner, pyTruthyList]
    · refine ⟨by simp [route_after_runner, pyTruthyList], ?_⟩
      cases vis <;> simp [route_after_runner, pyTruthyList]
  · intro max_loop runErrors v hzero n
    induction n with
    | zero => simp [pipelineRun, pipelineInit]
    | succ n ih =>
        rw [pipelineRun]
        cases hn : (pipelineRun max_loop runErrors v n).node with
        | input_writer => simp [pipelineStep, hn]
        | runner =>
            simp [pipelineStep, hn, hzero, route_after_runner, pyTruthyList]
            split_ifs <;> simp
        | reviewer => exact absurd hn ih
        | visualization => simp [pipelineStep, hn]
        | done => simp [pipelineStep, hn]

/-- Witness for C2 at concrete inputs: empty error list routes to
visualization, and a run with error-free executions never reaches the
reviewer. -/
theorem route_after_runner_reviewer_iff_witness :
    route_after_runner (some [])  true = PNode.visualization ∧
    (pipelineRun 3 (fun _ => []) true 7).node ≠ PNode.reviewer := by
  constructor
  · have := ((route_after_runner_reviewer_iff (some []) true).2.1 (Or.inr rfl)).1
    simpa using this
  · exact (route_after_runner_reviewer_iff none true).2.2 3 (fun _ => []) true
      (fun _ => rfl) 7

/-- Helper: the sorted subtask list is pairwise ordered by priority. -/
theorem sortSubtasks_pairwise (l : List Subtask) :
    (sortSubtasks l).Pairwise (fun a b => compute_priority a ≤ compute_priority b) := by
  have := @List.sorted_mergeSort Subtask
    (fun a b => decide (compute_priority a ≤ compute_priority b))
    (by intro a b c hab hbc; simp_all; omega)
    (by intro a b; simp [Nat.le_total]) l
  simpa [sortSubtasks, List.Pairwise] using this

/-- C6: the file writer orders subtasks by folder priority: compute_priority
maps system, constant, 0 to 0, 1, 2 and every other folder to 3; in the
sorted list produced by initial_write, any subtask of strictly smaller
priority precedes any subtask of larger priority (so every system subtask
precedes every constant subtask, which precedes every 0 subtask, which
precedes everything else), and the sorted list is a permutation of the
input. -/
theorem subtask_sort_folder_priority :
    (∀ s : Subtask,
      (s.folder_name = "system" → compute_priority s = 0) ∧
      (s.folder_name = "constant" → compute_priority s = 1) ∧
      (s.folder_name = "0" → compute_priority s = 2) ∧
      (s.folder_name ≠ "system" → s.folder_name ≠ "constant" → s.folder_name ≠ "0" →
        compute_priority s = 3)) ∧
    (∀ (l : List Subtask) (i j : Fin (sortSubtasks l).length),
      compute_priority ((sortSubtasks l).get i) < compute_priority ((sortSubtasks l).get j) →
      i < j) ∧
    (∀ l : List Subtask, (sortSubtasks l).Perm l) := by
  refine ⟨?_, ?_, ?_⟩
  · intro s
    refine ⟨?_, ?_, ?_, ?_⟩ <;> intro h <;> simp [compute_priority, h]
    intro h2 h3
    simp_all
  · intro l i j hlt
    by_contra hle
    push_neg at hle
    rcases lt_or_eq_of_le hle with hji | hji
    · have := List.pairwise_iff_get.1 (sortSubtasks_pairwise l) j i hji
      omega
    · rw [hji] at hlt
      omega
  · intro l
    exact List.mergeSort_perm l _

/-- Witness for C6 at a concrete subtask list. -/
theorem subtask_sort_folder_priority_witness :
    compute_priority ⟨"U", "0"⟩ = 2 ∧
    sortSubtasks [⟨"U", "0"⟩, ⟨"controlDict", "system"⟩] =
      [⟨"controlDict", "system"⟩, ⟨"U", "0"⟩] := by
  constructor
  · exact (subtask_sort_folder_priority.1 ⟨"U", "0"⟩).2.2.1 rfl
  · simp [sortSubtasks, List.mergeSort, List.merge, compute_priority]

/-- Helper: overwriting one path leaves every other path unchanged. -/
theorem assocGet_assocSet_ne (l : List ((String × String) × String))
    (k k2 : String × String) (v : String) (h : k2 ≠ k) :
    assocGet (assocSet l k v) k2 = assocGet l k2 := by
  induction l with
  | nil => simp [assocSet, assocGet, Ne.symm h]
  | cons e rest ih =>
      obtain ⟨k0, v0⟩ := e
      by_cases hk : k0 = k
      · subst hk
        simp [assocSet, assocGet, Ne.symm h]
      · by_cases hk2 : k0 = k2 <;> simp [assocSet, hk, assocGet, hk2, h, ih]

/-- Helper: overwriting a path stores exactly the new content there. -/
theorem assocGet_assocSet_self (l : List ((String × String) × String))
    (k : String × String) (v : String) :
    assocGet (assocSet l k v) k = some v := by
  induction l with
  | nil => simp [assocSet, assocGet]
  | cons e rest ih =>
      obtain ⟨k0, v0⟩ := e
      by_cases hk : k0 = k
      · subst hk
        simp [assocSet, assocGet]
      · simp [assocSet, hk, assocGet, ih]

/-- Helper: a path present before an overwrite is still present after. -/
theorem assocGet_assocSet_isSome (l : List ((String × String) × String))
    (k k2 : String × String) (v : String)
    (h : (assocGet l k2).isSome) : (assocGet (assocSet l k v) k2).isSome := by
  by_cases hk : k2 = k
  · subst hk
    simp [assocGet_assocSet_self]
  · rwa [assocGet_assocSet_ne l k k2 v hk]

/-- Helper: dirAdd records the added file in its folder. -/
theorem dirLookup_dirAdd_self (dir : List (String × List String)) (folder file : String) :
    file ∈ dirLookup (dirAdd dir folder file) folder := by
  induction dir with
  | nil => simp [dirAdd, dirLookup]
  | cons e rest ih =>
      obtain ⟨f0, files⟩ := e
      by_cases hf : f0 = folder
      · subst hf
        by_cases hmem : file ∈ files <;>
          simp [dirAdd, dirLookup, hmem]
      · simp [dirAdd, hf, dirLookup, ih]

/-- Helper: dirAdd leaves any pair other than the added one unchanged. -/
theorem dirLookup_dirAdd_ne (dir : List (String × List String))
    (folder file folder2 file2 : String)
    (h : ¬(folder2 = folder ∧ file2 = file)) :
    (file2 ∈ dirLookup (dirAdd dir folder file) folder2) ↔
      file2 ∈ dirLookup dir folder2 := by
  induction dir with
  | nil =>
      by_cases h2 : folder2 = folder
      · subst h2
        have hne : file2 ≠ file := fun hf => h ⟨rfl, hf⟩
        simp [dirAdd, dirLookup, hne]
      · simp [dirAdd, dirLookup, Ne.symm h2]
  | cons e rest ih =>
      obtain ⟨f0, files⟩ := e
      by_cases hf : f0 = folder
      · subst hf
        by_cases h2 : f0 = folder2
        · subst h2
          have hne : file2 ≠ file := fun hf2 => h ⟨rfl, hf2⟩
          by_cases hmem : file ∈ files <;>
            simp [dirAdd, dirLookup, hmem, hne]
        · by_cases hmem : file ∈ files <;>
            simp [dirAdd, dirLookup, h2, hmem]
      · by_cases h2 : f0 = folder2
        · subst h2
          simp [dirAdd, hf, dirLookup]
        · simp [dirAdd, hf, dirLookup, h2, ih]

/-- Helper: dirAdd never removes a dir_structure membership. -/
theorem dirLookup_dirAdd_preserve (dir : List (String × List String))
    (folder file folder2 file2 : String)
    (h : file2 ∈ dirLookup dir folder2) :
    file2 ∈ dirLookup (dirAdd dir folder file) folder2 := by
  by_cases hp : folder2 = folder ∧ file2 = file
  · obtain ⟨rfl, rfl⟩ := hp
    exact dirLookup_dirAdd_self dir folder2 file2
  · exact (dirLookup_dirAdd_ne dir folder file folder2 file2 hp).2 h

/-- Helper: foamReplace keeps every record of an untouched pair. -/
theorem foamHas_foamReplace_ne (l : List FoamfilePydantic) (f : FoamfilePydantic)
    (folder file : String) (h : ¬(f.folder_name = folder ∧ f.file_name = file)) :
    foamHas (foamReplace l f) folder file ↔ foamHas l folder file := by
  unfold foamHas foamReplace
  constructor
  · rintro ⟨g, hg, hgf⟩
    rcases List.mem_append.1 hg with hg | hg
    · exact ⟨g, (List.mem_filter.1 hg).1, hgf⟩
    · simp at hg
      subst hg
      exact absurd hgf h
  · rintro ⟨g, hg, hgf⟩
    refine ⟨g, List.mem_append.2 (Or.inl (List.mem_filter.2 ⟨hg, ?_⟩)), hgf⟩
    simp only [decide_eq_true_eq]
    intro hgmatch
    exact h ⟨by rw [← hgmatch.1, hgf.1], by rw [← hgmatch.2, hgf.2]⟩

/-- Helper: foamReplace keeps a record for every pair present before. -/
theorem foamHas_foamReplace_preserve (l : List FoamfilePydantic) (f : FoamfilePydantic)
    (folder file : String) (h : foamHas l folder file) :
    foamHas (foamReplace l f) folder file := by
  by_cases hf : f.folder_name = folder ∧ f.file_name = file
  · exact ⟨f, by simp [foamReplace], hf.1, hf.2⟩
  · exact (foamHas_foamReplace_ne l f folder file hf).2 h

/-- Helper: a rewrite pass leaves every pair not named in the response with
exactly the disk content, dir_structure membership and foamfiles record it
had before. -/
theorem rewrite_files_frame (response : List FoamfilePydantic) :
    ∀ (st : RewriteState) (folder file : String),
      ¬namedInResponse response folder file →
      assocGet (rewrite_files st response).disk (folder, file) =
          assocGet st.disk (folder, file) ∧
      ((file ∈ dirLookup (rewrite_files st response).dir_structure folder) ↔
          file ∈ dirLookup st.dir_structure folder) ∧
      (foamHas (rewrite_files st response).foamfiles folder file ↔
          foamHas st.foamfiles folder file) := by
  induction response with
  | nil => intro st folder file _; exact ⟨rfl, Iff.rfl, Iff.rfl⟩
  | cons r rest ih =>
      intro st folder file hnot
      have hr : ¬(r.folder_name = folder ∧ r.file_name = file) := by
        intro hm
        exact hnot ⟨r, List.mem_cons_self r rest, hm⟩
      have hrest : ¬namedInResponse rest folder file := by
        rintro ⟨g, hg, hgm⟩
        exact hnot ⟨g, List.mem_cons_of_mem r hg, hgm⟩
      have step := ih (applyRewriteFile st r) folder file hrest
      refine ⟨?_, ?_, ?_⟩
      · rw [show rewrite_files st (r :: rest) = rewrite_files (applyRewriteFile st r) rest
          from rfl, step.1]
        exact assocGet_assocSet_ne st.disk (r.folder_name, r.file_name) (folder, file)
          r.content (by simpa [Prod.ext_iff, and_comm] using fun h1 h2 => hr ⟨h1.symm, h2.symm⟩)
      · rw [show rewrite_files st (r :: rest) = rewrite_files (applyRewriteFile st r) rest
          from rfl]
        rw [step.2.1]
        exact dirLookup_dirAdd_ne st.dir_structure r.folder_name r.file_name folder file
          (fun hm => hr ⟨hm.1.symm, hm.2.symm⟩)
      · rw [show rewrite_files st (r :: rest) = rewrite_files (applyRewriteFile st r) rest
          from rfl]
        rw [step.2.2]
        exact foamHas_foamReplace_ne st.foamfiles r folder file hr

/-- Helper: a rewrite pass never removes a disk file, a dir_structure entry
or a foamfiles record. -/
theorem rewrite_files_mono (response : List FoamfilePydantic) :
    ∀ (st : RewriteState) (folder file : String),
      ((assocGet st.disk (folder, file)).isSome →
        (assocGet (rewrite_files st response).disk (folder, file)).isSome) ∧
      (file ∈ dirLookup st.dir_structure folder →
        file ∈ dirLookup (rewrite_files st response).dir_structure folder) ∧
      (foamHas st.foamfiles folder file →
        foamHas (rewrite_files st response).foamfiles folder file) := by
  induction response with
  | nil => intro st folder file; exact ⟨id, id, id⟩
  | cons r rest ih =>
      intro st folder file
      have step := ih (applyRewriteFile st r) folder file
      refine ⟨fun h => step.1 ?_, fun h => step.2.1 ?_, fun h => step.2.2 ?_⟩
      · exact assocGet_assocSet_isSome st.disk (r.folder_name, r.file_name)
          (folder, file) r.content h
      · exact dirLookup_dirAdd_preserve st.dir_structure r.folder_name r.file_name
          folder file h
      · exact foamHas_foamReplace_preserve st.foamfiles r folder file h

/-- Helper: every pair named in the response ends up present, with content
coming from a response record for that exact pair. -/
theorem rewrite_files_writes (response : List FoamfilePydantic) :
    ∀ (st : RewriteState), ∀ f ∈ response,
      f.file_name ∈ dirLookup (rewrite_files st response).dir_structure f.folder_name ∧
      ∃ g ∈ response, g.folder_name = f.folder_name ∧ g.file_name = f.file_name ∧
        assocGet (rewrite_files st response).disk (f.folder_name, f.file_name) =
          some g.content := by
  induction response with
  | nil => intro st f hf; exact absurd hf (List.not_mem_nil f)
  | cons r rest ih =>
      intro st f hf
      rcases List.mem_cons.1 hf with rfl | hf2
      · constructor
        · have hd := dirLookup_dirAdd_self st.dir_structure f.folder_name f.file_name
          exact (rewrite_files_mono rest (applyRewriteFile st f) f.folder_name
            f.file_name).2.1 hd
        · by_cases hnamed : namedInResponse rest f.folder_name f.file_name
          · obtain ⟨g2, hg2, hg2m⟩ := hnamed
            obtain ⟨_, g3, hg3, hg3a, hg3b, hg3c⟩ := ih (applyRewriteFile st f) g2 hg2
            refine ⟨g3, List.mem_cons_of_mem f hg3, by rw [hg3a, hg2m.1],
              by rw [hg3b, hg2m.2], ?_⟩
            rw [show rewrite_files st (f :: rest) = rewrite_files (applyRewriteFile st f) rest
              from rfl, ← hg2m.1, ← hg2m.2]
            exact hg3c
          · refine ⟨f, List.mem_cons_self f rest, rfl, rfl, ?_⟩
            rw [show rewrite_files st (f :: rest) = rewrite_files (applyRewriteFile st f) rest
              from rfl,
              (rewrite_files_frame rest (applyRewriteFile st f) f.folder_name
                f.file_name hnamed).1]
            exact assocGet_assocSet_self st.disk (f.folder_name, f.file_name) f.content
      · obtain ⟨hd, g, hg, hga, hgb, hgc⟩ := ih (applyRewriteFile st r) f hf2
        exact ⟨hd, g, List.mem_cons_of_mem r hg, hga, hgb, hgc⟩

/-- C3: frame effect of one repair-iteration rewrite.  The rewrite pass
overwrites or adds exactly the (folder_name, file_name) entries listed in
the response: every pair named in the response ends up in dir_structure and
on disk with content taken from a response record for that pair; every disk
path, dir_structure entry and foamfiles record for a pair not named in the
response is left exactly as it was; and no existing disk file, dir entry or
foamfiles record is ever removed. -/
theorem rewrite_iteration_frame_effect (st : RewriteState)
    (response : List FoamfilePydantic) :
    (∀ f ∈ response,
      f.file_name ∈ dirLookup (rewrite_files st response).dir_structure f.folder_name ∧
      ∃ g ∈ response, g.folder_name = f.folder_name ∧ g.file_name = f.file_name ∧
        assocGet (rewrite_files st response).disk (f.folder_name, f.file_name) =
          some g.content) ∧
    (∀ folder file, ¬namedInResponse response folder file →
      assocGet (rewrite_files st response).disk (folder, file) =
          assocGet st.disk (folder, file) ∧
      ((file ∈ dirLookup (rewrite_files st response).dir_structure folder) ↔
          file ∈ dirLookup st.dir_structure folder) ∧
      (foamHas (rewrite_files st response).foamfiles folder file ↔
          foamHas st.foamfiles folder file)) ∧
    (∀ folder file,
      ((assocGet st.disk (folder, file)).isSome →
        (assocGet (rewrite_files st response).disk (folder, file)).isSome) ∧
      (file ∈ dirLookup st.dir_structure folder →
        file ∈ dirLookup (rewrite_files st response).dir_structure folder) ∧
      (foamHas st.foamfiles folder file →
        foamHas (rewrite_files st response).foamfiles folder file)) :=
  ⟨fun f hf => rewrite_files_writes response st f hf,
   fun folder file h => rewrite_files_frame response st folder file h,
   fun folder file => rewrite_files_mono response st folder file⟩

/-- Witness for C3 at a concrete state and response: rewriting 0/U leaves
system/controlDict untouched and records the new content for 0/U. -/
theorem rewrite_iteration_frame_effect_witness :
    assocGet (rewrite_files
        { disk := [(("system", "controlDict"), "cd"), (("0", "U"), "old")]
          dir_structure := [("system", ["controlDict"]), ("0", ["U"])]
          foamfiles := [⟨"controlDict", "system", "cd"⟩, ⟨"U", "0", "old"⟩] }
        [⟨"U", "0", "new"⟩]).disk ("system", "controlDict") = some "cd" ∧
    assocGet (rewrite_files
        { disk := [(("system", "controlDict"), "cd"), (("0", "U"), "old")]
          dir_structure := [("system", ["controlDict"]), ("0", ["U"])]
          foamfiles := [⟨"controlDict", "system", "cd"⟩, ⟨"U", "0", "old"⟩] }
        [⟨"U", "0", "new"⟩]).disk ("0", "U") = some "new" := by
  constructor
  · have := (rewrite_iteration_frame_effect
        { disk := [(("system", "controlDict"), "cd"), (("0", "U"), "old")]
          dir_structure := [("system", ["controlDict"]), ("0", ["U"])]
          foamfiles := [⟨"controlDict", "system", "cd"⟩, ⟨"U", "0", "old"⟩] }
        [⟨"U", "0", "new"⟩]).2.1 "system" "controlDict" (by
          rintro ⟨g, hg, hgm⟩
          simp at hg
          subst hg
          simp at hgm)
    rw [this.1]
    rfl
  · have := (rewrite_iteration_frame_effect
        { disk := [(("system", "controlDict"), "cd"), (("0", "U"), "old")]
          dir_structure := [("system", ["controlDict"]), ("0", ["U"])]
          foamfiles := [⟨"controlDict", "system", "cd"⟩, ⟨"U", "0", "old"⟩] }
        [⟨"U", "0", "new"⟩]).1 ⟨"U", "0", "new"⟩ (by simp)
    obtain ⟨_, g, hg, _, _, hc⟩ := this
    simp at hg
    subst hg
    exact hc

/-- C10: the pre-execution cleanup removes exactly the first-level
directory entries whose names Python-float-parse, other than the one named
0: an entry survives iff it is not (a directory with a float-parsing name
different from 0); in particular the 0 directory, every file, and the
non-numeric system and constant directories always survive. -/
theorem remove_numeric_folders_exact (entries : List DirEntry) :
    (∀ e ∈ entries,
      e ∈ remove_numeric_folders entries ↔
        ¬(e.isDir = true ∧ e.name ≠ "0" ∧ pyFloatAccepts e.name = true)) ∧
    pyFloatAccepts "system" = false ∧
    pyFloatAccepts "constant" = false ∧
    (∀ e ∈ entries, e.name = "0" → e ∈ remove_numeric_folders entries) ∧
    (∀ e ∈ entries, e.isDir = false → e ∈ remove_numeric_folders entries) := by
  have hmem : ∀ e ∈ entries,
      e ∈ remove_numeric_folders entries ↔
        ¬(e.isDir = true ∧ e.name ≠ "0" ∧ pyFloatAccepts e.name = true) := by
    intro e he
    unfold remove_numeric_folders
    rw [List.mem_filter]
    constructor
    · rintro ⟨-, hcond⟩ hbad
      simp only [Bool.not_eq_true', Bool.and_eq_false_imp] at hcond
      have h1 : (e.isDir && (e.name != "0")) = true := by
        rw [hbad.1]
        simp [bne, hbad.2.1]
      have h2 := hcond h1
      rw [hbad.2.2] at h2
      simp at h2
    · intro hok
      refine ⟨he, ?_⟩
      simp only [Bool.not_eq_true']
      by_contra hne
      rw [Bool.not_eq_false] at hne
      simp only [Bool.and_eq_true, bne_iff_ne] at hne
      exact hok ⟨hne.1.1, hne.1.2, hne.2⟩
  refine ⟨hmem, by decide, by decide, ?_, ?_⟩
  · intro e he hname
    rw [hmem e he]
    intro hbad
    exact hbad.2.1 hname
  · intro e he hdir
    rw [hmem e he]
    intro hbad
    rw [hdir] at hbad
    simp at hbad

/-- Witness for C10 at a concrete directory listing: the 0 and system
directories and a numeric-named file survive, while the 0.5 time directory
is removed. -/
theorem remove_numeric_folders_exact_witness :
    (⟨"0", true⟩ : DirEntry) ∈ remove_numeric_folders
        [⟨"0", true⟩, ⟨"system", true⟩, ⟨"0.5", true⟩, ⟨"12", false⟩] ∧
    (⟨"12", false⟩ : DirEntry) ∈ remove_numeric_folders
        [⟨"0", true⟩, ⟨"system", true⟩, ⟨"0.5", true⟩, ⟨"12", false⟩] ∧
    (⟨"0.5", true⟩ : DirEntry) ∉ remove_numeric_folders
        [⟨"0", true⟩, ⟨"system", true⟩, ⟨"0.5", true⟩, ⟨"12", false⟩] := by
  refine ⟨?_, ?_, ?_⟩
  · exact (remove_numeric_folders_exact _).2.2.2.1 ⟨"0", true⟩ (by decide) rfl
  · exact (remove_numeric_folders_exact _).2.2.2.2 ⟨"12", false⟩ (by decide) rfl
  · intro hin
    have := ((remove_numeric_folders_exact _).1 ⟨"0.5", true⟩ (by decide)).1 hin
    exact this ⟨rfl, by decide, by decide⟩

/-- Helper: the rerank comparison is total. -/
theorem rerankLE_total (s : String) (a b : FaissRecord) :
    rerankLE s a b ∨ rerankLE s b a := by
  unfold rerankLE
  rcases lt_trichotomy (-(solverMatch s a)) (-(solverMatch s b)) with h | h | h
  · exact Or.inl (Or.inl h)
  · rcases le_total (scoreVal a) (scoreVal b) with hs | hs
    · exact Or.inl (Or.inr ⟨h, hs⟩)
    · exact Or.inr (Or.inr ⟨h.symm, hs⟩)
  · exact Or.inr (Or.inl h)

/-- Helper: the rerank comparison is transitive. -/
theorem rerankLE_trans (s : String) (a b c : FaissRecord)
    (hab : rerankLE s a b) (hbc : rerankLE s b c) : rerankLE s a c := by
  unfold rerankLE at *
  rcases hab with hab | ⟨hab1, hab2⟩
  · rcases hbc with hbc | ⟨hbc1, hbc2⟩
    · exact Or.inl (lt_trans hab hbc)
    · exact Or.inl (hbc1 ▸ hab)
  · rcases hbc with hbc | ⟨hbc1, hbc2⟩
    · exact Or.inl (hab1 ▸ hbc)
    · exact Or.inr ⟨hab1.trans hbc1, hab2.trans hbc2⟩

/-- Helper: the reranked list is a permutation of its input and is pairwise
ordered by the rerank comparison. -/
theorem rerank_candidates_sorted (candidates : List FaissRecord) (s : String) :
    (rerank_candidates candidates s).Perm candidates ∧
    (rerank_candidates candidates s).Pairwise (rerankLE s) := by
  constructor
  · exact List.mergeSort_perm candidates _
  · have := @List.sorted_mergeSort FaissRecord
      (fun a b => decide (rerankLE s a b))
      (fun a b c hab hbc => by
        simp only [decide_eq_true_eq] at *
        exact rerankLE_trans s a b c hab hbc)
      (fun a b => by
        simp only [Bool.or_eq_true, decide_eq_true_eq]
        exact rerankLE_total s a b)
      candidates
    exact List.Pairwise.imp (by simp) this

/-- C5: reference retrieval requests max(10, searchdocs) (at least ten)
candidates from the structure index; the hard filter keeps exactly the
candidates whose case_domain equals the requested domain, independent of
score; an empty filtered set yields the explicit no-reference result; and
otherwise a record minimal under (solver exact-match descending, score
ascending) among the survivors is selected, and its own full_content (with
triple newlines collapsed) is reused as the detail reference rather than a
fresh query result. -/
theorem retrieve_references_selection (case_domain case_solver : String)
    (searchdocs : Nat) (faissQuery : Nat → List FaissRecord) :
    10 ≤ recallK searchdocs ∧
    (∀ c, c ∈ domainMatched case_domain (faissQuery (recallK searchdocs)) ↔
      (c ∈ faissQuery (recallK searchdocs) ∧ c.case_domain = some case_domain)) ∧
    (domainMatched case_domain (faissQuery (recallK searchdocs)) = [] →
      retrieve_references case_domain case_solver searchdocs faissQuery =
        RetrieveOutcome.noReference) ∧
    (∀ sel detail,
      retrieve_references case_domain case_solver searchdocs faissQuery =
        RetrieveOutcome.selected sel detail →
      sel ∈ domainMatched case_domain (faissQuery (recallK searchdocs)) ∧
      detail = String.mk (collapseTripleNewlines sel.full_content.data) ∧
      ∀ c ∈ domainMatched case_domain (faissQuery (recallK searchdocs)),
        rerankLE case_solver sel c) ∧
    (domainMatched case_domain (faissQuery (recallK searchdocs)) ≠ [] →
      ∃ sel detail,
        retrieve_references case_domain case_solver searchdocs faissQuery =
          RetrieveOutcome.selected sel detail) := by
  have hperm := (rerank_candidates_sorted
    (domainMatched case_domain (faissQuery (recallK searchdocs))) case_solver).1
  have hpair := (rerank_candidates_sorted
    (domainMatched case_domain (faissQuery (recallK searchdocs))) case_solver).2
  refine ⟨Nat.le_max_left 10 searchdocs, ?_, ?_, ?_, ?_⟩
  · intro c
    simp [domainMatched, List.mem_filter, and_comm]
  · intro hempty
    simp [retrieve_references, hempty]
  · intro sel detail hsel
    by_cases hempty : domainMatched case_domain (faissQuery (recallK searchdocs)) = []
    · simp [retrieve_references, hempty] at hsel
    · simp only [retrieve_references, if_neg hempty] at hsel
      cases hr : (rerank_candidates
          (domainMatched case_domain (faissQuery (recallK searchdocs))) case_solver) with
      | nil =>
          have := hperm.length_eq
          rw [hr] at this
          exact absurd (List.length_eq_zero.1 this.symm) hempty
      | cons a arest =>
          rw [hr] at hsel
          simp only [List.head?, RetrieveOutcome.selected.injEq] at hsel
          obtain ⟨h1, h2⟩ := hsel
          have hamem : a ∈
              domainMatched case_domain (faissQuery (recallK searchdocs)) := by
            apply hperm.mem_iff.1
            rw [hr]
            exact List.mem_cons_self _ _
          refine ⟨h1 ▸ hamem, h2 ▸ (by rw [h1]), ?_⟩
          intro c hc
          rw [← h1]
          have hcr := hperm.mem_iff.2 hc
          rw [hr] at hcr
          rcases List.mem_cons.1 hcr with rfl | hcr2
          · exact Or.inr ⟨rfl, le_refl _⟩
          · rw [hr] at hpair
            exact (List.pairwise_cons.1 hpair).1 c hcr2
  · intro hne
    cases hr : (rerank_candidates
        (domainMatched case_domain (faissQuery (recallK searchdocs))) case_solver) with
    | nil =>
        have := hperm.length_eq
        rw [hr] at this
        exact absurd (List.length_eq_zero.1 this.symm) hne
    | cons a arest =>
        refine ⟨a, String.mk (collapseTripleNewlines a.full_content.data), ?_⟩
        simp [retrieve_references, hne, hr]

/-- Witness for C5 at concrete queries: a candidate set with no
domain-matching record yields the explicit no-reference result, and a
non-empty domain-matched set yields a selected reference. -/
theorem retrieve_references_selection_witness :
    retrieve_references "solid" "solverA" 2
        (fun _ => [⟨"caseX", some "fluid", some "solverA", some 1, "body"⟩]) =
      RetrieveOutcome.noReference ∧
    (∃ sel detail,
      retrieve_references "fluid" "solverA" 2
          (fun _ => [⟨"caseX", some "fluid", some "solverA", some 1, "body"⟩]) =
        RetrieveOutcome.selected sel detail) := by
  constructor
  · exact (retrieve_references_selection "solid" "solverA" 2 _).2.2.1 (by decide)
  · exact (retrieve_references_selection "fluid" "solverA" 2 _).2.2.2.2 (by decide)

/-- Helper: a successful attempt returns its response unchanged. -/
theorem invokeFrom_success (attempt : Nat → AttemptOutcome) (max_retries rc : Nat)
    (r : String) (h : attempt rc = AttemptOutcome.success r) :
    invokeFrom attempt max_retries rc = InvokeResult.ok r := by
  rw [invokeFrom, h]

/-- Helper: a throttling failure with budget remaining retries with the
counter incremented. -/
theorem invokeFrom_step_throttle (attempt : Nat → AttemptOutcome) (max_retries rc : Nat)
    (e : PyError) (hatt : attempt rc = AttemptOutcome.failure e)
    (hthr : is_throttling_error e = true) (hlt : rc < max_retries) :
    invokeFrom attempt max_retries rc = invokeFrom attempt max_retries (rc + 1) := by
  rw [invokeFrom, hatt]
  simp only [hthr, if_true]
  rw [dif_neg (by omega)]

/-- Helper: a run whose first k attempts all fail with throttling reaches
attempt k. -/
theorem invokeFrom_skip (attempt : Nat → AttemptOutcome) (max_retries : Nat) :
    ∀ k, k ≤ max_retries →
      (∀ j, j < k → ∃ e, attempt j = AttemptOutcome.failure e ∧
        is_throttling_error e = true) →
      invokeFrom attempt max_retries 0 = invokeFrom attempt max_retries k := by
  intro k
  induction k with
  | zero => intro _ _; rfl
  | succ k ih =>
      intro hk hthr
      obtain ⟨e, he, het⟩ := hthr k (Nat.lt_succ_self k)
      rw [ih (Nat.le_of_succ_le hk) (fun j hj => hthr j (Nat.lt_succ_of_lt hj))]
      exact invokeFrom_step_throttle attempt max_retries k e he het (by omega)

/-- C9: the completion-service retry policy.  The n-th retry sleeps
min(60, 2^(n-1)) seconds plus a jitter of at most ten percent; a
non-throttling failure is raised immediately, with no retry; a success after
any run of at most max_retries throttling failures is returned transparently;
when every attempt up to the cap fails with throttling, the call raises the
hard maximum-retries failure; and the default retry cap is 10. -/
theorem llm_throttling_retry_policy :
    (∀ n : Nat, 1 ≤ n →
      backoffDelay n = min 60 ((2 : ℚ) ^ (n - 1)) ∧
      ∀ j : ℚ, 0 ≤ j → j ≤ backoffDelay n / 10 →
        backoffDelay n ≤ backoffSleep n j ∧
        backoffSleep n j ≤ (11 / 10) * backoffDelay n) ∧
    (∀ (attempt : Nat → AttemptOutcome) (max_retries rc : Nat) (e : PyError),
      attempt rc = AttemptOutcome.failure e → is_throttling_error e = false →
      invokeFrom attempt max_retries rc = InvokeResult.raised e) ∧
    (∀ (attempt : Nat → AttemptOutcome) (max_retries k : Nat), k ≤ max_retries →
      (∀ j, j < k → ∃ e, attempt j = AttemptOutcome.failure e ∧
        is_throttling_error e = true) →
      ∀ r, attempt k = AttemptOutcome.success r →
        invokeFrom attempt max_retries 0 = InvokeResult.ok r) ∧
    (∀ (attempt : Nat → AttemptOutcome) (max_retries : Nat),
      (∀ j, j ≤ max_retries → ∃ e, attempt j = AttemptOutcome.failure e ∧
        is_throttling_error e = true) →
      ∃ e, attempt max_retries = AttemptOutcome.failure e ∧
        invokeFrom attempt max_retries 0 = InvokeResult.throttleExhausted e) ∧
    (∀ attempt : Nat → AttemptOutcome, invoke attempt = invokeFrom attempt 10 0) := by
  refine ⟨?_, ?_, ?_, ?_, fun _ => rfl⟩
  · intro n _
    refine ⟨rfl, ?_⟩
    intro j hj0 hj10
    have hd0 : (0 : ℚ) ≤ backoffDelay n := by
      unfold backoffDelay
      have h2 : (0 : ℚ) ≤ (2 : ℚ) ^ (n - 1) := by positivity
      have h60 : (0 : ℚ) ≤ 60 := by norm_num
      exact le_min h60 h2
    constructor
    · unfold backoffSleep
      linarith
    · unfold backoffSleep
      linarith
  · intro attempt max_retries rc e hatt hthr
    rw [invokeFrom, hatt]
    simp [hthr]
  · intro attempt max_retries k hk hthr r hsucc
    rw [invokeFrom_skip attempt max_retries k hk hthr]
    exact invokeFrom_success attempt max_retries k r hsucc
  · intro attempt max_retries hthr
    obtain ⟨e, he, het⟩ := hthr max_retries (le_refl _)
    refine ⟨e, he, ?_⟩
    rw [invokeFrom_skip attempt max_retries max_retries (le_refl _)
      (fun j hj => hthr j (Nat.le_of_lt hj))]
    rw [invokeFrom, he]
    simp only [het, if_true]
    rw [dif_pos (Nat.lt_succ_self max_retries)]

/-- Witness for C9 at concrete attempt sequences: a non-throttling error is
raised immediately, two throttling failures followed by a success return the
success, a run of only throttling failures exhausts the cap, and the
seventh retry delay caps at 60 seconds. -/
theorem llm_throttling_retry_policy_witness :
    invokeFrom (fun _ => AttemptOutcome.failure ⟨"ValueError", "bad input", none⟩) 10 0 =
      InvokeResult.raised ⟨"ValueError", "bad input", none⟩ ∧
    invokeFrom
        (fun k => if k < 2 then
          AttemptOutcome.failure ⟨"ThrottlingException", "Rate exceeded", none⟩
        else AttemptOutcome.success "done") 10 0 = InvokeResult.ok "done" ∧
    (∃ e, invokeFrom
        (fun _ => AttemptOutcome.failure ⟨"ThrottlingException", "Rate exceeded", none⟩)
        1 0 = InvokeResult.throttleExhausted e) ∧
    backoffDelay 7 = 60 := by
  refine ⟨?_, ?_, ?_, by norm_num [backoffDelay]⟩
  · exact llm_throttling_retry_policy.2.1 _ 10 0 ⟨"ValueError", "bad input", none⟩ rfl
      (by decide)
  · exact llm_throttling_retry_policy.2.2.1 _ 10 2 (by omega)
      (fun j hj => ⟨⟨"ThrottlingException", "Rate exceeded", none⟩, by simp [hj], by decide⟩)
      "done" (by simp)
  · obtain ⟨e, -, he⟩ := llm_throttling_retry_policy.2.2.2.1
      (fun _ => AttemptOutcome.failure ⟨"ThrottlingException", "Rate exceeded", none⟩) 1
      (fun j _ => ⟨⟨"ThrottlingException", "Rate exceeded", none⟩, rfl, by decide⟩)
    exact ⟨e, he⟩

/-- Counterexample to C4 as stated: when the boundary sets mismatch with
budget remaining but the corrector returns no code, control falls through
to the checkMesh step, and a quality-passing mesh reaches the accepted-mesh
path despite the asymmetric set difference (the same happens when the
converted boundary file is absent). -/
theorem mesh_boundary_gate_counterexample :
    handle_gmsh_boundary_phase
        { boundaryFileExists := true
          found_boundaries := ["walls"]
          expected_boundaries := ["inlet"]
          correctorResult := none
          checkmeshOk := true
          checkmeshContinue := false
          checkmeshCode := none } 0 5 = MeshIterOutcome.accept ∧
    (["walls"] : List String).toFinset ≠ (["inlet"] : List String).toFinset := by
  constructor
  · decide
  · decide

/-- C4 (amended): when the converted boundary file exists, the
accepted-mesh path requires set(found_boundaries) = set(expected_boundaries)
unless the mismatch corrector returned no code; the comparison is a set
comparison, order- and duplicate-independent; on a mismatch with budget
remaining and a successful correction the loop retries with exactly the
corrected code, and the correction prompt (as well as the boundary_error
it is built for) contains the exact found and expected boundary lists; on a
mismatch with the budget exhausted the mesh stage aborts. -/
theorem mesh_boundary_gate_amended (inp : GmshIterInput) (current_loop max_loop : Nat) :
    (handle_gmsh_boundary_phase inp current_loop max_loop = MeshIterOutcome.accept →
      inp.boundaryFileExists = false ∨
      inp.found_boundaries.toFinset = inp.expected_boundaries.toFinset ∨
      (current_loop < max_loop ∧ inp.correctorResult = none)) ∧
    (inp.boundaryFileExists = true →
      inp.found_boundaries.toFinset ≠ inp.expected_boundaries.toFinset →
      current_loop < max_loop →
      ∀ c, inp.correctorResult = some c →
        handle_gmsh_boundary_phase inp current_loop max_loop =
          MeshIterOutcome.retry (some c)) ∧
    (inp.boundaryFileExists = true →
      inp.found_boundaries.toFinset ≠ inp.expected_boundaries.toFinset →
      max_loop ≤ current_loop →
      handle_gmsh_boundary_phase inp current_loop max_loop = MeshIterOutcome.abort) ∧
    (∀ f2 e2 : List String, f2.toFinset = inp.found_boundaries.toFinset →
      e2.toFinset = inp.expected_boundaries.toFinset →
      handle_gmsh_boundary_phase
          { inp with found_boundaries := f2, expected_boundaries := e2 }
          current_loop max_loop =
        handle_gmsh_boundary_phase inp current_loop max_loop) ∧
    (∀ user_requirement current_code : String, ∃ a b c : String,
      gmshCorrectionPrompt user_requirement current_code
          inp.found_boundaries inp.expected_boundaries =
        a ++ pyListRepr inp.found_boundaries ++ b ++
          pyListRepr inp.expected_boundaries ++ c) ∧
    (∃ a b c : String,
      boundaryMismatchError inp.found_boundaries inp.expected_boundaries =
        a ++ pyListRepr inp.found_boundaries ++ b ++
          pyListRepr inp.expected_boundaries ++ c) := by
  refine ⟨?_, ?_, ?_, ?_, ?_, ?_⟩
  · intro hacc
    rw [handle_gmsh_boundary_phase] at hacc
    by_cases hb : inp.boundaryFileExists
    · rw [if_pos hb] at hacc
      by_cases hset : inp.found_boundaries.toFinset = inp.expected_boundaries.toFinset
      · exact Or.inr (Or.inl hset)
      · rw [if_pos hset] at hacc
        by_cases hloop : current_loop < max_loop
        · rw [if_pos hloop] at hacc
          cases hc : inp.correctorResult with
          | none => exact Or.inr (Or.inr ⟨hloop, rfl⟩)
          | some c =>
              rw [hc] at hacc
              exact absurd hacc (by simp)
        · rw [if_neg hloop] at hacc
          exact absurd hacc (by simp)
    · exact Or.inl (by simpa using hb)
  · intro hb hset hloop c hc
    rw [handle_gmsh_boundary_phase, if_pos hb, if_pos hset, if_pos hloop, hc]
  · intro hb hset hloop
    rw [handle_gmsh_boundary_phase, if_pos hb, if_pos hset,
      if_neg (Nat.not_lt.2 hloop)]
  · intro f2 e2 hf he
    rw [handle_gmsh_boundary_phase, handle_gmsh_boundary_phase]
    simp only [hf, he]
    rfl
  · intro user_requirement current_code
    refine ⟨"<user_requirements>" ++ user_requirement ++ "</user_requirements>" ++
      "\n<boundary_mismatch>Found boundaries in OpenFOAM: ",
      ". Expected boundaries: ",
      ". " ++ boundaryInfoTail ++ "\n" ++ "<current_python_code>" ++ current_code ++
        "</current_python_code>\n" ++ gmshCorrectionPromptTail, ?_⟩
    simp only [gmshCorrectionPrompt, gmshBoundaryInfo, String.append_assoc]
  · exact ⟨"Boundary mismatch after gmshToFoam. Found boundaries: ",
      ". Expected boundaries: ", ". ", by
        simp only [boundaryMismatchError, String.append_assoc]⟩

/-- Witness for the amended C4 at concrete inputs: a mismatch with budget
and a successful correction retries with the corrected code, and a mismatch
with the budget exhausted aborts. -/
theorem mesh_boundary_gate_amended_witness :
    handle_gmsh_boundary_phase
        { boundaryFileExists := true
          found_boundaries := ["walls"]
          expected_boundaries := ["inlet"]
          correctorResult := some "fixed code"
          checkmeshOk := true
          checkmeshContinue := false
          checkmeshCode := none } 0 5 = MeshIterOutcome.retry (some "fixed code") ∧
    handle_gmsh_boundary_phase
        { boundaryFileExists := true
          found_boundaries := ["walls"]
          expected_boundaries := ["inlet"]
          correctorResult := some "fixed code"
          checkmeshOk := true
          checkmeshContinue := false
          checkmeshCode := none } 5 5 = MeshIterOutcome.abort := by
  constructor
  · exact (mesh_boundary_gate_amended _ 0 5).2.1 rfl (by decide) (by omega)
      "fixed code" rfl
  · exact (mesh_boundary_gate_amended _ 5 5).2.2.1 rfl (by decide) (by omega)

/-- Helper: a successful marker search returns the ERROR:-initial suffix of
the scanned content. -/
theorem fromMarker_spec :
    ∀ l r : List Char, fromMarker l = some r →
      "ERROR:".data.isPrefixOf r = true ∧ r <:+ l := by
  intro l
  induction l with
  | nil => intro r h; exact absurd h (by simp [fromMarker])
  | cons c cs ih =>
      intro r h
      rw [fromMarker] at h
      by_cases hp : "ERROR:".data.isPrefixOf (c :: cs) = true
      · rw [if_pos hp] at h
        obtain rfl : c :: cs = r := by injection h
        exact ⟨hp, List.suffix_refl _⟩
      · rw [if_neg hp] at h
        obtain ⟨h1, h2⟩ := ih r h
        exact ⟨h1, h2.trans (List.suffix_cons c cs)⟩

/-- Helper: the marker search fails exactly when the content has no ERROR:
substring. -/
theorem fromMarker_none_iff :
    ∀ l : List Char, fromMarker l = none ↔
      (l.tails.any fun t => "ERROR:".data.isPrefixOf t) = false := by
  intro l
  induction l with
  | nil => simp [fromMarker]
  | cons c cs ih =>
      rw [fromMarker]
      by_cases hp : "ERROR:".data.isPrefixOf (c :: cs) = true
      · simp [hp]
      · simp only [if_neg hp, List.tails_cons, List.any_cons,
          Bool.not_eq_true] at hp ⊢
        rw [ih, hp]
        simp

/-- Helper: every tier-1 record carries the name of the log it came from. -/
theorem tier1F_file (directory : String) (e : String × Option String)
    (r : ErrorRecord) (h : tier1F directory e = some r) : r.file = e.1 := by
  rcases e with ⟨n, oc⟩
  cases oc with
  | none =>
      simp only [tier1F] at h
      injection h with h2
      rw [← h2]
  | some content =>
      simp only [tier1F] at h
      cases hm : errorMatch content with
      | none => rw [hm] at h; exact absurd h (by simp)
      | some m =>
          rw [hm] at h
          injection h with h2
          rw [← h2]

/-- Helper: with distinct log names, filtering the tier-1 records by one log
name isolates exactly that log's contribution. -/
theorem tier1_filter_name (directory : String) :
    ∀ L : List (String × Option String), (L.map Prod.fst).Nodup →
      ∀ name content, (name, some content) ∈ L →
        (L.filterMap (tier1F directory)).filter (fun r => r.file = name) =
          (match errorMatch content with
            | some m => [(⟨name, m⟩ : ErrorRecord)]
            | none => []) := by
  intro L
  induction L with
  | nil => intro _ name content h; exact absurd h (List.not_mem_nil _)
  | cons e L2 ih =>
      intro hnd name content hmem
      rw [List.map_cons, List.nodup_cons] at hnd
      have hnone : ∀ rest : List ErrorRecord,
          (∀ r ∈ rest, r.file ∈ L2.map Prod.fst) → name ∉ L2.map Prod.fst →
          rest.filter (fun r => r.file = name) = [] := by
        intro rest hrest hnot
        rw [List.filter_eq_nil]
        intro r hr
        simp only [decide_eq_true_eq]
        intro heq
        exact hnot (heq ▸ hrest r hr)
      have hsub : ∀ r ∈ L2.filterMap (tier1F directory), r.file ∈ L2.map Prod.fst := by
        intro r hr
        obtain ⟨e2, he2, hF⟩ := List.mem_filterMap.1 hr
        rw [tier1F_file directory e2 r hF]
        exact List.mem_map_of_mem Prod.fst he2
      by_cases hname : e.1 = name
      · have hnotin : name ∉ L2.map Prod.fst := hname ▸ hnd.1
        have he : e = (name, some content) := by
          rcases List.mem_cons.1 hmem with h | h
          · exact h.symm
          · exact absurd (List.mem_map_of_mem Prod.fst h) hnotin
        subst he
        rw [List.filterMap_cons]
        cases hm : errorMatch content with
        | none =>
            have hF : tier1F directory (name, some content) = none := by
              simp [tier1F, hm]
            rw [hF]
            exact hnone _ hsub hnotin
        | some m =>
            have hF : tier1F directory (name, some content) =
                some ⟨name, m⟩ := by
              simp [tier1F, hm]
            rw [hF, List.filter_cons]
            have hpa : (decide ((⟨name, m⟩ : ErrorRecord).file = name)) = true := by
              simp
            rw [if_pos hpa, hnone _ hsub hnotin]
      · have hmem2 : (name, some content) ∈ L2 := by
          rcases List.mem_cons.1 hmem with h | h
          · exact absurd (congrArg Prod.fst h.symm) hname
          · exact h
        rw [List.filterMap_cons]
        cases hF : tier1F directory e with
        | none => exact ih hnd.2 name content hmem2
        | some r =>
            rw [List.filter_cons]
            have hpa : (decide (r.file = name)) = false := by
              simp only [decide_eq_false_iff_not]
              rw [tier1F_file directory e r hF]
              exact hname
            rw [if_neg (by simp [hpa])]
            exact ih hnd.2 name content hmem2

/-- Helper: when every readable log is marker-free and all logs are
readable, the tier-2 scan over log_contents agrees with a direct scan over
the log entries. -/
theorem tier2_scan_eq :
    ∀ L : List (String × Option String), (∀ e ∈ L, e.2 ≠ none) →
      ((L.filterMap fun e => e.2.map fun c => (e.1, c)).filterMap fun e =>
          if hasEndMarker e.2 then none else some (⟨e.1, tier2Message e.2⟩ : ErrorRecord)) =
        L.filterMap fun e =>
          match e.2 with
          | some c => if hasEndMarker c then none
              else some (⟨e.1, tier2Message c⟩ : ErrorRecord)
          | none => none := by
  intro L
  induction L with
  | nil => intro _; rfl
  | cons e L2 ih =>
      intro hread
      cases he : e.2 with
      | none => exact absurd he (hread e (List.mem_cons_self e L2))
      | some c =>
          simp only [List.filterMap_cons, he, Option.map_some']
          by_cases hEnd : hasEndMarker c = true
          · simp only [hEnd, if_true]
            exact ih fun e2 he2 => hread e2 (List.mem_cons_of_mem e he2)
          · simp only [Bool.not_eq_true] at hEnd
            simp only [hEnd, Bool.false_eq_true, if_false]
            exact congrArg (List.cons _)
              (ih fun e2 he2 => hread e2 (List.mem_cons_of_mem e he2))

/-- C7: the two tiers of log diagnosis.  A successful ERROR: search yields
the stripped content from the first marker to the end of the log (so the
record message contains the text after the marker up to stripping), and
fails exactly when the log has no ERROR: substring; when at least one log
contributes a tier-1 record, the output restricted to any one log name is
exactly one hard record when that log matches the marker and none
otherwise; and only when no log contributed a tier-1 record, every readable
log lacking a whitespace-only End line yields one record carrying the
missing-End message with the last 30 lines of that log. -/
theorem check_foam_errors_two_tier (directory : String)
    (entries : List (String × Option String)) :
    (∀ content m : String, errorMatch content = some m →
      ∃ r : List Char, fromMarker content.data = some r ∧
        "ERROR:".data.isPrefixOf r = true ∧ r <:+ content.data ∧
        m = pyStrip (String.mk r)) ∧
    (∀ content : String,
      errorMatch content = none ↔ containsSub content "ERROR:" = false) ∧
    (((logEntries entries).map Prod.fst).Nodup →
      (∃ e ∈ logEntries entries, tier1F directory e ≠ none) →
      ∀ name content, (name, some content) ∈ logEntries entries →
        (check_foam_errors directory entries).filter (fun r => r.file = name) =
          (match errorMatch content with
            | some m => [(⟨name, m⟩ : ErrorRecord)]
            | none => [])) ∧
    ((∀ e ∈ logEntries entries, e.2 ≠ none) →
      (∀ e ∈ logEntries entries, ∀ c, e.2 = some c → errorMatch c = none) →
      check_foam_errors directory entries =
        (logEntries entries).filterMap fun e =>
          match e.2 with
          | some c => if hasEndMarker c then none
              else some (⟨e.1, tier2Message c⟩ : ErrorRecord)
          | none => none) := by
  refine ⟨?_, ?_, ?_, ?_⟩
  · intro content m hm
    unfold errorMatch at hm
    cases hf : fromMarker content.data with
    | none => rw [hf] at hm; exact absurd hm (by simp)
    | some r =>
        rw [hf] at hm
        obtain ⟨h1, h2⟩ := fromMarker_spec content.data r hf
        exact ⟨r, rfl, h1, h2, by injection hm with h3; rw [← h3]⟩
  · intro content
    unfold errorMatch containsSub
    cases hf : fromMarker content.data with
    | none =>
        simp only [Option.map_none]
        rw [← fromMarker_none_iff content.data] at *
        simp [hf]
    | some r =>
        simp only [Option.map_some]
        constructor
        · intro h; exact absurd h (by simp)
        · intro h
          rw [(fromMarker_none_iff content.data).2 h] at hf
          exact absurd hf (by simp)
  · intro hnd hmark name content hmem
    have htier1 : tier1Records directory entries ≠ [] := by
      obtain ⟨e, he, hne⟩ := hmark
      cases hF : tier1F directory e with
      | none => exact absurd hF hne
      | some r =>
          have : r ∈ tier1Records directory entries :=
            List.mem_filterMap.2 ⟨e, he, hF⟩
          exact List.ne_nil_of_mem this
    have hch : check_foam_errors directory entries =
        tier1Records directory entries := by
      unfold check_foam_errors
      rw [if_neg htier1]
    rw [hch]
    exact tier1_filter_name directory (logEntries entries) hnd name content hmem
  · intro hread hnomark
    have htier1 : tier1Records directory entries = [] := by
      unfold tier1Records
      rw [List.filterMap_eq_nil]
      intro e he
      cases hc : e.2 with
      | none => exact absurd hc (hread e he)
      | some c =>
          simp [tier1F, hc, hnomark e he c hc]
    unfold check_foam_errors
    rw [if_pos htier1]
    by_cases hre : readableLogs entries = []
    · rw [if_pos hre]
      have hLnil : ∀ e ∈ logEntries entries, False := by
        intro e he
        have := List.filterMap_eq_nil.1 hre e he
        rw [Option.map_eq_none'] at this
        exact hread e he this
      rw [eq_comm, List.filterMap_eq_nil]
      intro e he
      exact absurd he (by intro h; exact hLnil e h)
    · rw [if_neg hre]
      exact tier2_scan_eq (logEntries entries) hread

/-- Witness for C7 at a concrete log directory: the log containing
ERROR: Unknown keyword (nu) yields exactly one hard record, the record
message contains nu, and the End-marked log contributes nothing. -/
theorem check_foam_errors_two_tier_witness :
    (check_foam_errors "run"
        [("logBlockMesh", some "stuff\nEnd\n"),
          ("logSolver", some ("text ERROR: Unknown keyword " ++ pyApos ++ "nu" ++ pyApos))]).filter
        (fun r => r.file = "logSolver") =
      (match errorMatch ("text ERROR: Unknown keyword " ++ pyApos ++ "nu" ++ pyApos) with
        | some m => [(⟨"logSolver", m⟩ : ErrorRecord)]
        | none => []) ∧
    errorMatch ("text ERROR: Unknown keyword " ++ pyApos ++ "nu" ++ pyApos) =
      some ("ERROR: Unknown keyword " ++ pyApos ++ "nu" ++ pyApos) ∧
    containsSub ("ERROR: Unknown keyword " ++ pyApos ++ "nu" ++ pyApos) "nu" = true ∧
    (check_foam_errors "run"
        [("logBlockMesh", some "stuff\nEnd\n"),
          ("logSolver", some ("text ERROR: Unknown keyword " ++ pyApos ++ "nu" ++ pyApos))]).length
      = 1 := by
  refine ⟨?_, by decide, by decide, by decide⟩
  exact (check_foam_errors_two_tier "run" _).2.2.1 (by decide)
    ⟨("logSolver", some ("text ERROR: Unknown keyword " ++ pyApos ++ "nu" ++ pyApos)),
      by decide, by decide⟩
    "logSolver" ("text ERROR: Unknown keyword " ++ pyApos ++ "nu" ++ pyApos) (by decide)

/-- C8 (against the intended reading of run_command; the committed source
does not parse, see the definition): on timeout the whole process group is
killed and the timeout marker is prepended to both capture files; without a
timeout both streams are written unchanged and no kill is issued. -/
theorem run_command_intended_behavior (stdout stderr : String) :
    (run_command true stdout stderr).out_file = timeoutMessage ++ stdout ∧
    (run_command true stdout stderr).err_file = timeoutMessage ++ stderr ∧
    (run_command true stdout stderr).killedProcessGroup = true ∧
    (run_command false stdout stderr).out_file = stdout ∧
    (run_command false stdout stderr).err_file = stderr ∧
    (run_command false stdout stderr).killedProcessGroup = false ∧
    (∀ t : Bool, (run_command t stdout stderr).killedProcessGroup = t) :=
  ⟨rfl, rfl, rfl, rfl, rfl, rfl, fun t => by cases t <;> rfl⟩

end FoamAgent
